import Mathlib

/-!
# Transaction processor: shallow embedding and verification

Shallow embedding of the transaction-processing core of the repository
(`src/domain.rs`, `src/api.rs`, `src/state.rs`, `src/processor.rs`).

Modelling conventions:

* `ClientId` (`u16` in the source) and `TransactionId` (`u32`) are opaque
  identifiers; no arithmetic is performed on them, so `Nat` models them.
* `Amount` is `rust_decimal::Decimal` in the source: an exact decimal value.
  The processor only adds, subtracts and compares amounts, and all of those
  operations are exact on `Decimal`, so the processor model uses `Rat`.
  The output-boundary scaling (`Account::scaled` /
  `scale_to_amount_precision`), which is about the *representation*
  (mantissa and fractional scale) rather than the numeric value, is modelled
  separately on an explicit mantissa/scale pair `Dec` mirroring
  `rust_decimal`'s rescaling loop.
* The store (`State` in `src/state.rs`) wraps its two `HashMap`s in
  `RwLock`s; the only failure of a store operation is lock poisoning, which
  cannot occur in the sequential single-threaded model, so operations whose
  Rust signature can only fail through poisoning are modelled as total.
  Keyed maps are modelled as functions to `Option`.
* Store operations that take `&self` and mutate through the lock are
  modelled by returning the updated `State` alongside the result.
* `TransactionProcessor::process` logs and discards the result of the inner
  insert/lookup/adjust/upsert chain.  `processInner` models that inner
  chain (what the closure passed to `.map` computes, together with the
  insertion result), and `process` models the public method, which only
  surfaces the validity error.
-/

namespace Ledger

abbrev ClientId := Nat
abbrev TransactionId := Nat
abbrev Amount := Rat

/-- Error taxonomy from `src/api.rs` (`ProcessingError`). -/
inductive ProcessingError where
  | TransactionIsNotValid (id : TransactionId)
  | TransactionNotFound (id : TransactionId)
  | TransactionAlreadyExists (id : TransactionId)
  | TransactionAlreadyUnderDispute (id : TransactionId)
  | TransactionIsNotDisputable (id : TransactionId)
  | TransactionAccessDenied (id : TransactionId) (client_id : ClientId)
  | AccountInsufficientAvailableFunds (client_id : ClientId)
  | AccountInsufficientHeldFunds (client_id : ClientId)
  | AccountIsLocked (client_id : ClientId)
  | UnknownError (msg : String)
deriving DecidableEq

/-- Display strings from the `thiserror` attributes in `src/api.rs`. -/
def ProcessingError.message : ProcessingError → String
  | .TransactionIsNotValid id =>
      "Transaction with id " ++ toString id ++ " is not valid"
  | .TransactionNotFound id =>
      "Transaction with id " ++ toString id ++ " not found"
  | .TransactionAlreadyExists id =>
      "Transaction with id " ++ toString id ++ " already exists"
  | .TransactionAlreadyUnderDispute id =>
      "Transaction with id " ++ toString id ++ " already under dispute"
  | .TransactionIsNotDisputable id =>
      "Transaction with id " ++ toString id ++ " is not disputable"
  | .TransactionAccessDenied id cid =>
      "Transaction with id " ++ toString id ++
        " can't be accessed by client with id " ++ toString cid
  | .AccountInsufficientAvailableFunds cid =>
      "Client " ++ toString cid ++ " account has insufficient available funds"
  | .AccountInsufficientHeldFunds cid =>
      "Client " ++ toString cid ++ " account has insufficient held funds"
  | .AccountIsLocked cid =>
      "Client " ++ toString cid ++ " account is locked"
  | .UnknownError m => "Unknown error: " ++ m

/-- `StoredTransaction` from `src/domain.rs`: only `Deposit` carries the
mutable `under_dispute` flag, only `Deposit`/`Withdrawal` carry an amount. -/
inductive StoredTransaction where
  | deposit (id : TransactionId) (client_id : ClientId) (amount : Amount)
      (under_dispute : Bool)
  | withdrawal (id : TransactionId) (client_id : ClientId) (amount : Amount)
  | dispute (id : TransactionId) (client_id : ClientId)
  | resolve (id : TransactionId) (client_id : ClientId)
  | chargeback (id : TransactionId) (client_id : ClientId)
deriving DecidableEq

/-- `StoredTransaction::id`. -/
def StoredTransaction.id : StoredTransaction → TransactionId
  | .deposit i _ _ _ => i
  | .withdrawal i _ _ => i
  | .dispute i _ => i
  | .resolve i _ => i
  | .chargeback i _ => i

/-- `StoredTransaction::client_id`. -/
def StoredTransaction.client_id : StoredTransaction → ClientId
  | .deposit _ c _ _ => c
  | .withdrawal _ c _ => c
  | .dispute _ c => c
  | .resolve _ c => c
  | .chargeback _ c => c

/-- `StoredTransaction::is_not_valid`: true exactly for a Deposit or
Withdrawal whose amount is strictly negative. -/
def StoredTransaction.is_not_valid : StoredTransaction → Bool
  | .deposit _ _ amount _ => decide (amount < 0)
  | .withdrawal _ _ amount => decide (amount < 0)
  | _ => false

/-- `StoredTransaction::set_under_dispute`: only a Deposit has the flag. -/
def StoredTransaction.set_under_dispute
    (tx : StoredTransaction) (flag : Bool) : StoredTransaction :=
  match tx with
  | .deposit i c a _ => .deposit i c a flag
  | t => t

/-- `Account` from `src/domain.rs`. -/
structure Account where
  client : ClientId
  available : Amount
  held : Amount
  total : Amount
  locked : Bool
deriving DecidableEq

/-- `Account::new`: zero balances, unlocked. -/
def Account.new (client : ClientId) : Account :=
  { client := client, available := 0, held := 0, total := 0, locked := false }

/-- The balance equation the spec requires of every account. -/
def Account.balanced (a : Account) : Prop := a.total = a.available + a.held

instance (a : Account) : Decidable a.balanced := by
  unfold Account.balanced
  infer_instance

/-- `State` from `src/state.rs`: the two keyed maps, modelled as functions. -/
structure State where
  accounts : ClientId → Option Account
  transactions : TransactionId → Option StoredTransaction

/-- `State::new`. -/
def State.empty : State :=
  { accounts := fun _ => none, transactions := fun _ => none }

/-- `State::get_transaction`. -/
def State.get_transaction (s : State) (id : TransactionId) :
    Except ProcessingError StoredTransaction :=
  match s.transactions id with
  | some tx => .ok tx
  | none => .error (.TransactionNotFound id)

/-- `State::insert_transaction`: Deposit/Withdrawal are inserted keyed by
their id unless the key is taken; the other variants are returned unchanged
without touching the map. -/
def State.insert_transaction (s : State) (tx : StoredTransaction) :
    Except ProcessingError StoredTransaction × State :=
  match tx with
  | .deposit _ _ _ _ | .withdrawal _ _ _ =>
    if (s.transactions tx.id).isSome then
      (.error (.TransactionAlreadyExists tx.id), s)
    else
      (.ok tx,
       { s with transactions := fun k =>
           if k = tx.id then some tx else s.transactions k })
  | _ => (.ok tx, s)

/-- `State::under_dispute`: set the dispute flag on the stored transaction
with that id if present (a no-op on absent ids and non-Deposits). -/
def State.under_dispute (s : State) (id : TransactionId) (flag : Bool) :
    State :=
  { s with transactions := fun k =>
      if k = id then (s.transactions k).map (fun t => t.set_under_dispute flag)
      else s.transactions k }

/-- `State::get_account`: stored account or a freshly zeroed one. -/
def State.get_account (s : State) (id : ClientId) : Account :=
  (s.accounts id).getD (Account.new id)

/-- `State::upsert_account`: wholesale replacement keyed by `client`. -/
def State.upsert_account (s : State) (a : Account) : State :=
  { s with accounts := fun k =>
      if k = a.client then some a else s.accounts k }

/-- `TransactionProcessor::adjust_account` from `src/processor.rs`.
The Rust method mutates the account snapshot and (on the dispute paths)
the store; the model returns the updated pair on success.  Every error
return in the source happens before any mutation, so returning only the
error on failure is faithful. -/
def adjust_account (s : State) (account : Account)
    (transaction : StoredTransaction) :
    Except ProcessingError (Account × State) :=
  match transaction with
  | .deposit _ _ amount _ =>
    .ok ({ account with
             available := account.available + amount,
             total := account.total + amount }, s)
  | .withdrawal _ client_id amount =>
    if account.available < amount then
      .error (.AccountInsufficientAvailableFunds client_id)
    else
      .ok ({ account with
               available := account.available - amount,
               total := account.total - amount }, s)
  | .dispute id _ =>
    match s.get_transaction id with
    | .ok (.deposit did client_id amount ud) =>
      if account.client ≠ client_id then
        .error (.TransactionAccessDenied did client_id)
      else if ud then
        .error (.TransactionAlreadyUnderDispute did)
      else if account.available < amount then
        .error (.AccountInsufficientAvailableFunds client_id)
      else
        .ok ({ account with
                 available := account.available - amount,
                 held := account.held + amount },
             s.under_dispute did true)
    | .ok other => .error (.TransactionIsNotDisputable other.id)
    | .error (.TransactionNotFound _) => .ok (account, s)
    | .error e => .error (.UnknownError e.message)
  | .resolve id _ =>
    match s.get_transaction id with
    | .ok (.deposit did client_id amount ud) =>
      if account.client ≠ client_id then
        .error (.TransactionAccessDenied did client_id)
      else if ¬ ud then
        .ok (account, s)
      else if account.held < amount then
        .error (.AccountInsufficientHeldFunds client_id)
      else
        .ok ({ account with
                 available := account.available + amount,
                 held := account.held - amount },
             s.under_dispute did false)
    | .ok other => .error (.TransactionIsNotDisputable other.id)
    | .error (.TransactionNotFound _) => .ok (account, s)
    | .error e => .error (.UnknownError e.message)
  | .chargeback id _ =>
    match s.get_transaction id with
    | .ok (.deposit did client_id amount ud) =>
      if account.client ≠ client_id then
        .error (.TransactionAccessDenied did client_id)
      else if ¬ ud then
        .ok (account, s)
      else if account.held < amount then
        .error (.AccountInsufficientAvailableFunds client_id)
      else
        .ok ({ account with
                 held := account.held - amount,
                 total := account.total - amount,
                 locked := true },
             s.under_dispute did false)
    | .ok other => .error (.TransactionIsNotDisputable other.id)
    | .error (.TransactionNotFound _) => .ok (account, s)
    | .error e => .error (.UnknownError e.message)

/-- The inner chain of `TransactionProcessor::process`: insert the record,
fetch the account, reject if locked, adjust, write back.  `process` logs
and discards this result. -/
def processInner (s : State) (tx : StoredTransaction) :
    Except ProcessingError Unit × State :=
  match s.insert_transaction tx with
  | (.error e, s1) => (.error e, s1)
  | (.ok tx1, s1) =>
    let account := s1.get_account tx1.client_id
    if account.locked then
      (.error (.AccountIsLocked account.client), s1)
    else
      match adjust_account s1 account tx1 with
      | .error e => (.error e, s1)
      | .ok (account1, s2) => (.ok (), s2.upsert_account account1)

/-- `TransactionProcessor::process`: reject invalid records, otherwise run
the inner chain and swallow its error. -/
def process (s : State) (tx : StoredTransaction) :
    Except ProcessingError Unit × State :=
  if tx.is_not_valid then
    (.error (.TransactionIsNotValid tx.id), s)
  else
    (.ok (), (processInner s tx).2)

/-- Sequential replay of a batch, as `main.rs` drives the processor. -/
def processAll (s : State) : List StoredTransaction → State
  | [] => s
  | tx :: txs => processAll (process s tx).2 txs

/-- Every account in the store satisfies the balance equation. -/
def State.allBalanced (s : State) : Prop :=
  ∀ c a, s.accounts c = some a → a.balanced

/-- Every stored transaction sits at the map key equal to its own id
(hence ids are unique across the store). -/
def State.wellKeyed (s : State) : Prop :=
  ∀ id tx, s.transactions id = some tx → tx.id = id

section DecimalScaling

/-- `AMOUNT_PRECISION` from `src/domain.rs`. -/
def AMOUNT_PRECISION : Nat := 4

/-- Representation-level view of a `rust_decimal::Decimal`: an integer
mantissa and a fractional scale, denoting `mantissa / 10 ^ scale`. -/
structure Dec where
  mantissa : Int
  scale : Nat
deriving DecidableEq

/-- The magnitude-reduction loop of `rust_decimal`'s rescaling: divide by
ten once per dropped digit, keeping the remainder of the last division.
Returns the reduced magnitude and that last remainder. -/
def rescaleMag (m : Nat) : Nat → Nat × Nat
  | 0 => (m, 0)
  | 1 => (m / 10, m % 10)
  | k + 1 => rescaleMag (m / 10) k

/-- `scale_to_amount_precision` from `src/domain.rs`: rescale to
`AMOUNT_PRECISION` fractional digits if the scale exceeds it (rounding the
magnitude away from zero when the first dropped digit is ≥ 5, as
`Decimal::rescale` does), otherwise return the amount untouched. -/
def scale_to_amount_precision (amount : Dec) : Dec :=
  if AMOUNT_PRECISION < amount.scale then
    let diff := amount.scale - AMOUNT_PRECISION
    let mr := rescaleMag amount.mantissa.natAbs diff
    let m := if 5 ≤ mr.2 then mr.1 + 1 else mr.1
    { mantissa := if amount.mantissa < 0 then -(m : Int) else (m : Int),
      scale := AMOUNT_PRECISION }
  else amount

/-- The account as the output boundary sees it: each amount in its
representation-level (mantissa, scale) form. -/
structure AccountDec where
  client : ClientId
  available : Dec
  held : Dec
  total : Dec
  locked : Bool
deriving DecidableEq

/-- `Account::scaled`: rescale all three amounts for output. -/
def AccountDec.scaled (a : AccountDec) : AccountDec :=
  { a with
      available := scale_to_amount_precision a.available,
      held := scale_to_amount_precision a.held,
      total := scale_to_amount_precision a.total }

end DecimalScaling

section TestFixtures

/-- A locked account, for exercising the locked-account path. -/
def lockedAccount : Account :=
  { client := 1, available := 0, held := 0, total := 0, locked := true }

/-- A store whose only content is the locked account of client 1. -/
def lockedState : State :=
  { accounts := fun c => if c = 1 then some lockedAccount else none,
    transactions := fun _ => none }

/-- A store holding a single deposit of 5 for client 2 under tx id 1,
with the given dispute flag. -/
def depositState (flag : Bool) : State :=
  { accounts := fun _ => none,
    transactions := fun k =>
      if k = 1 then some (.deposit 1 2 5 flag) else none }

/-- Client 2 after the deposit of 5 was moved to held by a dispute. -/
def heldAccount : Account :=
  { client := 2, available := 0, held := 5, total := 5, locked := false }

/-- Client 2 right after the deposit of 5. -/
def availAccount : Account :=
  { client := 2, available := 5, held := 0, total := 5, locked := false }

/-- A store already holding a deposit under tx id 7. -/
def dupState : State :=
  { accounts := fun _ => none,
    transactions := fun k =>
      if k = 7 then some (.deposit 7 3 4 false) else none }

end TestFixtures

/-! ## Basic lemmas about the store operations -/

theorem set_under_dispute_id (tx : StoredTransaction) (flag : Bool) :
    (tx.set_under_dispute flag).id = tx.id := by
  cases tx <;> rfl

theorem under_dispute_accounts (s : State) (id : TransactionId) (flag : Bool) :
    (s.under_dispute id flag).accounts = s.accounts := rfl

theorem under_dispute_wellKeyed (s : State) (id : TransactionId) (flag : Bool)
    (h : s.wellKeyed) : (s.under_dispute id flag).wellKeyed := by
  intro k t hk
  simp only [State.under_dispute] at hk
  by_cases hki : k = id
  · rw [if_pos hki] at hk
    cases hm : s.transactions k with
    | none => rw [hm, Option.map_none'] at hk; cases hk
    | some t0 =>
      rw [hm, Option.map_some'] at hk
      cases hk
      rw [set_under_dispute_id]
      exact h k t0 hm
  · rw [if_neg hki] at hk
    exact h k t hk

theorem upsert_transactions (s : State) (a : Account) :
    (s.upsert_account a).transactions = s.transactions := rfl

theorem upsert_allBalanced {s : State} {a : Account}
    (hs : s.allBalanced) (ha : a.balanced) :
    (s.upsert_account a).allBalanced := by
  intro c b hb
  simp only [State.upsert_account] at hb
  by_cases hc : c = a.client
  · rw [if_pos hc] at hb
    cases hb
    exact ha
  · rw [if_neg hc] at hb
    exact hs c b hb

theorem allBalanced_ext {s s' : State}
    (h : s'.accounts = s.accounts) (hb : s.allBalanced) : s'.allBalanced := by
  intro c a ha
  rw [h] at ha
  exact hb c a ha

theorem wellKeyed_ext {s s' : State}
    (h : s'.transactions = s.transactions) (hw : s.wellKeyed) :
    s'.wellKeyed := by
  intro k t hk
  rw [h] at hk
  exact hw k t hk

theorem new_balanced (c : ClientId) : (Account.new c).balanced := by
  simp [Account.new, Account.balanced]

theorem get_account_balanced {s : State} (hs : s.allBalanced) (c : ClientId) :
    (s.get_account c).balanced := by
  unfold State.get_account
  cases hc : s.accounts c with
  | none => exact new_balanced c
  | some a => exact hs c a hc

theorem insert_transaction_err {s : State} {tx : StoredTransaction}
    {e : ProcessingError} {s1 : State}
    (h : s.insert_transaction tx = (.error e, s1)) :
    s1 = s ∧ e = .TransactionAlreadyExists tx.id := by
  cases tx <;> simp only [State.insert_transaction] at h
  case deposit i c a u =>
    split at h
    · simp only [Prod.mk.injEq, Except.error.injEq] at h
      exact ⟨h.2.symm, h.1.symm⟩
    · simp at h
  case withdrawal i c a =>
    split at h
    · simp only [Prod.mk.injEq, Except.error.injEq] at h
      exact ⟨h.2.symm, h.1.symm⟩
    · simp at h
  all_goals simp at h

theorem insert_transaction_ok {s : State} {tx tx1 : StoredTransaction}
    {s1 : State} (h : s.insert_transaction tx = (.ok tx1, s1)) :
    tx1 = tx ∧ s1.accounts = s.accounts ∧ (s.wellKeyed → s1.wellKeyed) := by
  cases tx <;> simp only [State.insert_transaction] at h
  case dispute i c =>
    simp only [Prod.mk.injEq, Except.ok.injEq] at h
    obtain ⟨rfl, rfl⟩ := h
    exact ⟨rfl, rfl, fun hw => hw⟩
  case resolve i c =>
    simp only [Prod.mk.injEq, Except.ok.injEq] at h
    obtain ⟨rfl, rfl⟩ := h
    exact ⟨rfl, rfl, fun hw => hw⟩
  case chargeback i c =>
    simp only [Prod.mk.injEq, Except.ok.injEq] at h
    obtain ⟨rfl, rfl⟩ := h
    exact ⟨rfl, rfl, fun hw => hw⟩
  case deposit i c a u =>
    split at h
    · simp at h
    · simp only [Prod.mk.injEq, Except.ok.injEq] at h
      obtain ⟨rfl, rfl⟩ := h
      refine ⟨rfl, rfl, fun hw k t hk => ?_⟩
      simp only at hk
      by_cases hki : k = (StoredTransaction.deposit i c a u).id
      · rw [if_pos hki] at hk
        cases hk
        exact hki.symm
      · rw [if_neg hki] at hk
        exact hw k t hk
  case withdrawal i c a =>
    split at h
    · simp at h
    · simp only [Prod.mk.injEq, Except.ok.injEq] at h
      obtain ⟨rfl, rfl⟩ := h
      refine ⟨rfl, rfl, fun hw k t hk => ?_⟩
      simp only at hk
      by_cases hki : k = (StoredTransaction.withdrawal i c a).id
      · rw [if_pos hki] at hk
        cases hk
        exact hki.symm
      · rw [if_neg hki] at hk
        exact hw k t hk

/-- Everything a successful `adjust_account` guarantees, uniformly over the
five transaction kinds: the accounts map is untouched (only the snapshot
changes), the snapshot keeps its client, the balance equation is preserved,
and the transaction map stays keyed by id. -/
theorem adjust_account_ok {s : State} {acct : Account} {tx : StoredTransaction}
    {acct' : Account} {s' : State}
    (h : adjust_account s acct tx = .ok (acct', s')) :
    s'.accounts = s.accounts ∧ acct'.client = acct.client ∧
    (acct.balanced → acct'.balanced) ∧ (s.wellKeyed → s'.wellKeyed) := by
  cases tx with
  | deposit i c amt u =>
    simp only [adjust_account, Except.ok.injEq, Prod.mk.injEq] at h
    obtain ⟨h1, h2⟩ := h
    subst h1 h2
    refine ⟨rfl, rfl, ?_, fun hw => hw⟩
    intro hb
    simp only [Account.balanced] at hb ⊢
    rw [hb]; ring
  | withdrawal i c amt =>
    simp only [adjust_account] at h
    split at h
    · exact Except.noConfusion h
    · simp only [Except.ok.injEq, Prod.mk.injEq] at h
      obtain ⟨h1, h2⟩ := h
      subst h1 h2
      refine ⟨rfl, rfl, ?_, fun hw => hw⟩
      intro hb
      simp only [Account.balanced] at hb ⊢
      rw [hb]; ring
  | dispute i c =>
    cases hm : s.transactions i with
    | none =>
      simp only [adjust_account, State.get_transaction, hm,
        Except.ok.injEq, Prod.mk.injEq] at h
      obtain ⟨h1, h2⟩ := h
      subst h1 h2
      exact ⟨rfl, rfl, fun hb => hb, fun hw => hw⟩
    | some t0 =>
      cases t0 with
      | deposit did dc damt dud =>
        simp only [adjust_account, State.get_transaction, hm] at h
        split_ifs at h with h1 h2 h3 <;>
        first
        | exact Except.noConfusion h
        | (simp only [Except.ok.injEq, Prod.mk.injEq] at h
           obtain ⟨h4, h5⟩ := h
           subst h4 h5
           refine ⟨rfl, rfl, fun hb => ?_, ?_⟩
           · simp only [Account.balanced] at hb ⊢
             rw [hb]; try ring
           · first
             | exact fun hw => hw
             | exact under_dispute_wellKeyed s did true
             | exact under_dispute_wellKeyed s did false)
      | withdrawal did dc damt =>
        simp only [adjust_account, State.get_transaction, hm] at h
        exact Except.noConfusion h
      | dispute did dc =>
        simp only [adjust_account, State.get_transaction, hm] at h
        exact Except.noConfusion h
      | resolve did dc =>
        simp only [adjust_account, State.get_transaction, hm] at h
        exact Except.noConfusion h
      | chargeback did dc =>
        simp only [adjust_account, State.get_transaction, hm] at h
        exact Except.noConfusion h
  | resolve i c =>
    cases hm : s.transactions i with
    | none =>
      simp only [adjust_account, State.get_transaction, hm,
        Except.ok.injEq, Prod.mk.injEq] at h
      obtain ⟨h1, h2⟩ := h
      subst h1 h2
      exact ⟨rfl, rfl, fun hb => hb, fun hw => hw⟩
    | some t0 =>
      cases t0 with
      | deposit did dc damt dud =>
        simp only [adjust_account, State.get_transaction, hm] at h
        split_ifs at h with h1 h2 h3 <;>
        first
        | exact Except.noConfusion h
        | (simp only [Except.ok.injEq, Prod.mk.injEq] at h
           obtain ⟨h4, h5⟩ := h
           subst h4 h5
           refine ⟨rfl, rfl, fun hb => ?_, ?_⟩
           · simp only [Account.balanced] at hb ⊢
             rw [hb]; try ring
           · first
             | exact fun hw => hw
             | exact under_dispute_wellKeyed s did true
             | exact under_dispute_wellKeyed s did false)
      | withdrawal did dc damt =>
        simp only [adjust_account, State.get_transaction, hm] at h
        exact Except.noConfusion h
      | dispute did dc =>
        simp only [adjust_account, State.get_transaction, hm] at h
        exact Except.noConfusion h
      | resolve did dc =>
        simp only [adjust_account, State.get_transaction, hm] at h
        exact Except.noConfusion h
      | chargeback did dc =>
        simp only [adjust_account, State.get_transaction, hm] at h
        exact Except.noConfusion h
  | chargeback i c =>
    cases hm : s.transactions i with
    | none =>
      simp only [adjust_account, State.get_transaction, hm,
        Except.ok.injEq, Prod.mk.injEq] at h
      obtain ⟨h1, h2⟩ := h
      subst h1 h2
      exact ⟨rfl, rfl, fun hb => hb, fun hw => hw⟩
    | some t0 =>
      cases t0 with
      | deposit did dc damt dud =>
        simp only [adjust_account, State.get_transaction, hm] at h
        split_ifs at h with h1 h2 h3 <;>
        first
        | exact Except.noConfusion h
        | (simp only [Except.ok.injEq, Prod.mk.injEq] at h
           obtain ⟨h4, h5⟩ := h
           subst h4 h5
           refine ⟨rfl, rfl, fun hb => ?_, ?_⟩
           · simp only [Account.balanced] at hb ⊢
             rw [hb]; try ring
           · first
             | exact fun hw => hw
             | exact under_dispute_wellKeyed s did true
             | exact under_dispute_wellKeyed s did false)
      | withdrawal did dc damt =>
        simp only [adjust_account, State.get_transaction, hm] at h
        exact Except.noConfusion h
      | dispute did dc =>
        simp only [adjust_account, State.get_transaction, hm] at h
        exact Except.noConfusion h
      | resolve did dc =>
        simp only [adjust_account, State.get_transaction, hm] at h
        exact Except.noConfusion h
      | chargeback did dc =>
        simp only [adjust_account, State.get_transaction, hm] at h
        exact Except.noConfusion h

/-- Processing one record preserves both store invariants. -/
theorem process_state_preserves (s : State) (tx : StoredTransaction) :
    (s.allBalanced → ((process s tx).2).allBalanced) ∧
    (s.wellKeyed → ((process s tx).2).wellKeyed) := by
  cases hv : tx.is_not_valid with
  | true =>
    simp only [process, hv, if_true]
    exact ⟨fun hb => hb, fun hw => hw⟩
  | false =>
    simp only [process, hv, Bool.false_eq_true, if_false]
    cases hins : s.insert_transaction tx with
    | mk r1 s1 =>
      cases r1 with
      | error e =>
        obtain ⟨rfl, -⟩ := insert_transaction_err hins
        simp only [processInner, hins]
        exact ⟨fun hb => hb, fun hw => hw⟩
      | ok tx1 =>
        obtain ⟨htx1, hacc, hwk⟩ := insert_transaction_ok hins
        by_cases hl : (s1.get_account tx1.client_id).locked = true
        · simp only [processInner, hins, hl, if_true]
          exact ⟨fun hb => allBalanced_ext hacc hb, fun hw => hwk hw⟩
        · cases hadj : adjust_account s1 (s1.get_account tx1.client_id) tx1 with
          | error e2 =>
            simp only [processInner, hins, hl, if_false, hadj]
            exact ⟨fun hb => allBalanced_ext hacc hb, fun hw => hwk hw⟩
          | ok pr =>
            cases pr with
            | mk acct1 s2 =>
              obtain ⟨hacc2, -, hbal, hwk2⟩ := adjust_account_ok hadj
              simp only [processInner, hins, hl, if_false, hadj]
              constructor
              · intro hb
                have hb1 : s1.allBalanced := allBalanced_ext hacc hb
                have hb2 : s2.allBalanced :=
                  allBalanced_ext (hacc2.trans hacc) hb
                exact upsert_allBalanced hb2
                  (hbal (get_account_balanced hb1 tx1.client_id))
              · intro hw
                exact wellKeyed_ext (upsert_transactions s2 acct1)
                  (hwk2 (hwk hw))

/-- Replaying a batch preserves both store invariants. -/
theorem processAll_preserves (s : State) (txs : List StoredTransaction) :
    (s.allBalanced → (processAll s txs).allBalanced) ∧
    (s.wellKeyed → (processAll s txs).wellKeyed) := by
  induction txs generalizing s with
  | nil => exact ⟨fun hb => hb, fun hw => hw⟩
  | cons tx txs ih =>
    simp only [processAll]
    constructor
    · intro hb
      exact (ih ((process s tx).2)).1 ((process_state_preserves s tx).1 hb)
    · intro hw
      exact (ih ((process s tx).2)).2 ((process_state_preserves s tx).2 hw)

/-! ## Claim theorems -/

/-- **C1.** For every sequence of processed transactions, every account in
the store satisfies `total = available + held` at all times (the invariant
is preserved from any state satisfying it, hence holds in every
intermediate state of a run from the empty store), every freshly created
account satisfies it, and each of the five adjustment rules preserves it. -/
theorem balance_invariant :
    (∀ c, (Account.new c).balanced) ∧
    (∀ s acct tx acct' s', acct.balanced →
        adjust_account s acct tx = Except.ok (acct', s') → acct'.balanced) ∧
    (∀ s txs, s.allBalanced → (processAll s txs).allBalanced) := by
  refine ⟨new_balanced, ?_, ?_⟩
  · intro s acct tx acct' s' hb h
    exact (adjust_account_ok h).2.2.1 hb
  · intro s txs hb
    exact (processAll_preserves s txs).1 hb

/-- Witness for `balance_invariant`: a concrete deposit-then-dispute run
from the empty store. -/
theorem balance_invariant_witness :
    State.allBalanced (processAll State.empty
      [StoredTransaction.deposit 1 1 5 false, StoredTransaction.dispute 1 1]) :=
  balance_invariant.2.2 State.empty
    [StoredTransaction.deposit 1 1 5 false, StoredTransaction.dispute 1 1]
    (fun c a h => by simp [State.empty] at h)

/-- **C8.** A withdrawal whose amount exceeds the available funds fails with
`AccountInsufficientAvailableFunds` (carrying the record's client id) and
produces no updated account or state; otherwise it subtracts the amount
from `available` and `total` and leaves `held` unchanged. -/
theorem withdrawal_rule (s : State) (acct : Account) (id : TransactionId)
    (c : ClientId) (amt : Amount) :
    (acct.available < amt →
      adjust_account s acct (.withdrawal id c amt) =
        .error (.AccountInsufficientAvailableFunds c)) ∧
    (¬ acct.available < amt →
      adjust_account s acct (.withdrawal id c amt) =
        .ok ({ acct with available := acct.available - amt,
                         total := acct.total - amt }, s) ∧
      ({ acct with available := acct.available - amt,
                   total := acct.total - amt } : Account).held = acct.held) :=
  by
  constructor
  · intro h
    simp [adjust_account, h]
  · intro h
    exact ⟨by simp [adjust_account, h], rfl⟩

/-- Witness for `withdrawal_rule`: a withdrawal of 3 against 2 available
fails; a withdrawal of 3 against 5 available succeeds. -/
theorem withdrawal_rule_witness :
    adjust_account State.empty
      { client := 1, available := 2, held := 0, total := 2, locked := false }
      (.withdrawal 2 1 3) =
      .error (.AccountInsufficientAvailableFunds 1) ∧
    adjust_account State.empty availAccount (.withdrawal 2 2 3) =
      .ok ({ availAccount with available := 2, total := 2 }, State.empty) :=
  by
  constructor
  · exact (withdrawal_rule State.empty
      { client := 1, available := 2, held := 0, total := 2, locked := false }
      2 1 3).1 (by norm_num)
  · have h := ((withdrawal_rule State.empty availAccount 2 2 3).2
      (by norm_num [availAccount])).1
    rw [h]
    norm_num [availAccount]

/-- **C5.** Disputing a stored deposit owned by the acting client that is
not yet under dispute moves exactly the amount from `available` to `held`,
leaves `total` unchanged and sets the stored record's dispute flag; if
`available < amount` it fails with `AccountInsufficientAvailableFunds` and
produces no update; disputing a record already under dispute fails with
`TransactionAlreadyUnderDispute`. -/
theorem dispute_rule (s : State) (acct : Account) (id : TransactionId)
    (c cid : ClientId) (amt : Amount) (hc : acct.client = c) :
    (s.transactions id = some (.deposit id c amt false) →
      (acct.available < amt →
        adjust_account s acct (.dispute id cid) =
          .error (.AccountInsufficientAvailableFunds c)) ∧
      (¬ acct.available < amt →
        adjust_account s acct (.dispute id cid) =
          .ok ({ acct with available := acct.available - amt,
                           held := acct.held + amt },
               s.under_dispute id true) ∧
        ({ acct with available := acct.available - amt,
                     held := acct.held + amt } : Account).total = acct.total ∧
        (s.under_dispute id true).transactions id =
          some (.deposit id c amt true))) ∧
    (s.transactions id = some (.deposit id c amt true) →
      adjust_account s acct (.dispute id cid) =
        .error (.TransactionAlreadyUnderDispute id)) := by
  constructor
  · intro hst
    constructor
    · intro h
      simp [adjust_account, State.get_transaction, hst, hc, h]
    · intro h
      refine ⟨?_, rfl, ?_⟩
      · simp [adjust_account, State.get_transaction, hst, hc, h]
      · simp [State.under_dispute, hst, StoredTransaction.set_under_dispute]
  · intro hst
    simp [adjust_account, State.get_transaction, hst, hc]

/-- Witness for `dispute_rule`: disputing the stored deposit of 5 for
client 2 with 5 available succeeds and moves the funds to `held`. -/
theorem dispute_rule_witness :
    adjust_account (depositState false) availAccount (.dispute 1 2) =
      .ok ({ availAccount with available := 0, held := 5 },
           (depositState false).under_dispute 1 true) ∧
    ((depositState false).under_dispute 1 true).transactions 1 =
      some (.deposit 1 2 5 true) := by
  have h := ((dispute_rule (depositState false) availAccount 1 2 2 5
      rfl).1 rfl).2 (by norm_num [availAccount])
  refine ⟨?_, h.2.2⟩
  have h1 := h.1
  rw [h1]
  norm_num [availAccount]

/-- **C6.** Resolving a stored deposit owned by the acting client that is
under dispute reverses the dispute shift exactly (`available` up, `held`
down by the amount, `total` unchanged) and clears the dispute flag, unless
`held < amount`, in which case it fails with
`AccountInsufficientHeldFunds`; resolving a deposit that is not under
dispute succeeds without touching account or store. -/
theorem resolve_rule (s : State) (acct : Account) (id : TransactionId)
    (c cid : ClientId) (amt : Amount) (hc : acct.client = c) :
    (s.transactions id = some (.deposit id c amt true) →
      (acct.held < amt →
        adjust_account s acct (.resolve id cid) =
          .error (.AccountInsufficientHeldFunds c)) ∧
      (¬ acct.held < amt →
        adjust_account s acct (.resolve id cid) =
          .ok ({ acct with available := acct.available + amt,
                           held := acct.held - amt },
               s.under_dispute id false) ∧
        ({ acct with available := acct.available + amt,
                     held := acct.held - amt } : Account).total = acct.total ∧
        (s.under_dispute id false).transactions id =
          some (.deposit id c amt false))) ∧
    (s.transactions id = some (.deposit id c amt false) →
      adjust_account s acct (.resolve id cid) = .ok (acct, s)) := by
  constructor
  · intro hst
    constructor
    · intro h
      simp [adjust_account, State.get_transaction, hst, hc, h]
    · intro h
      refine ⟨?_, rfl, ?_⟩
      · simp [adjust_account, State.get_transaction, hst, hc, h]
      · simp [State.under_dispute, hst, StoredTransaction.set_under_dispute]
  · intro hst
    simp [adjust_account, State.get_transaction, hst, hc]

/-- Witness for `resolve_rule`: resolving the disputed deposit of 5 for
client 2 with 5 held succeeds, and resolving an undisputed one is a no-op. -/
theorem resolve_rule_witness :
    adjust_account (depositState true) heldAccount (.resolve 1 2) =
      .ok ({ heldAccount with available := 5, held := 0 },
           (depositState true).under_dispute 1 false) ∧
    adjust_account (depositState false) heldAccount (.resolve 1 2) =
      .ok (heldAccount, depositState false) := by
  constructor
  · have h := ((resolve_rule (depositState true) heldAccount 1 2 2 5
        rfl).1 rfl).2 (by norm_num [heldAccount])
    have h1 := h.1
    rw [h1]
    norm_num [heldAccount]
  · exact (resolve_rule (depositState false) heldAccount 1 2 2 5 rfl).2 rfl

/-- **C2.** Charging back a stored deposit owned by the acting client that
is under dispute fails with `AccountInsufficientAvailableFunds` (not
`AccountInsufficientHeldFunds`) when `held < amount`, producing no update;
otherwise it subtracts the amount from `held` and `total`, locks the
account and clears the stored record's dispute flag; charging back such a
deposit that is not under dispute succeeds without touching account or
store. -/
theorem chargeback_rule (s : State) (acct : Account) (id : TransactionId)
    (c cid : ClientId) (amt : Amount) (hc : acct.client = c) :
    (s.transactions id = some (.deposit id c amt true) →
      (acct.held < amt →
        adjust_account s acct (.chargeback id cid) =
          .error (.AccountInsufficientAvailableFunds c)) ∧
      (¬ acct.held < amt →
        adjust_account s acct (.chargeback id cid) =
          .ok ({ acct with held := acct.held - amt,
                           total := acct.total - amt, locked := true },
               s.under_dispute id false) ∧
        (s.under_dispute id false).transactions id =
          some (.deposit id c amt false))) ∧
    (s.transactions id = some (.deposit id c amt false) →
      adjust_account s acct (.chargeback id cid) = .ok (acct, s)) := by
  constructor
  · intro hst
    constructor
    · intro h
      simp [adjust_account, State.get_transaction, hst, hc, h]
    · intro h
      refine ⟨?_, ?_⟩
      · simp [adjust_account, State.get_transaction, hst, hc, h]
      · simp [State.under_dispute, hst, StoredTransaction.set_under_dispute]
  · intro hst
    simp [adjust_account, State.get_transaction, hst, hc]

/-- Witness for `chargeback_rule`: charging back the disputed deposit of 5
for client 2 with 5 held removes the funds and locks the account; the
insufficient-held path reports the available-funds error kind. -/
theorem chargeback_rule_witness :
    adjust_account (depositState true) heldAccount (.chargeback 1 2) =
      .ok ({ heldAccount with held := 0, total := 0, locked := true },
           (depositState true).under_dispute 1 false) ∧
    adjust_account (depositState true)
      { heldAccount with held := 1, total := 1 } (.chargeback 1 2) =
      .error (.AccountInsufficientAvailableFunds 2) := by
  constructor
  · have h := ((chargeback_rule (depositState true) heldAccount 1 2 2 5
        rfl).1 rfl).2 (by norm_num [heldAccount])
    have h1 := h.1
    rw [h1]
    norm_num [heldAccount]
  · exact ((chargeback_rule (depositState true)
      { heldAccount with held := 1, total := 1 } 1 2 2 5 rfl).1 rfl).1
      (by norm_num [heldAccount])

/-- **C4.** The public `process` returns an error exactly for a Deposit or
Withdrawal with strictly negative amount — the `TransactionIsNotValid`
rejection, which touches neither store — and returns `Ok ()` to the caller
for every other input, even when the inner handling failed. -/
theorem process_result_rule :
    (∀ s tx, tx.is_not_valid = true →
        process s tx = (.error (.TransactionIsNotValid tx.id), s)) ∧
    (∀ s tx, tx.is_not_valid = false → (process s tx).1 = .ok ()) ∧
    (∀ tx : StoredTransaction, tx.is_not_valid = true ↔
        ((∃ i c a u, tx = .deposit i c a u ∧ a < 0) ∨
         (∃ i c a, tx = .withdrawal i c a ∧ a < 0))) := by
  refine ⟨?_, ?_, ?_⟩
  · intro s tx h
    simp [process, h]
  · intro s tx h
    simp [process, h]
  · intro tx
    cases tx <;> simp [StoredTransaction.is_not_valid] <;>
      exact ⟨fun h => ⟨_, _, _, ⟨rfl, rfl, rfl⟩, h⟩,
        fun hh => by obtain ⟨i, c, a, ⟨rfl, rfl, rfl⟩, h4⟩ := hh; exact h4⟩

/-- Witness for `process_result_rule`: a negative deposit is rejected with
the state untouched; a dispute is accepted by the caller-facing result. -/
theorem process_result_rule_witness :
    process State.empty (.deposit 1 1 (-1) false) =
      (.error (.TransactionIsNotValid 1), State.empty) ∧
    (process State.empty (.dispute 9 9)).1 = .ok () :=
  ⟨process_result_rule.1 State.empty (.deposit 1 1 (-1) false) (by decide),
   process_result_rule.2.1 State.empty (.dispute 9 9) rfl⟩

/-- **C7.** A Deposit or Withdrawal whose id is already present in the
transaction store is not applied: its insertion fails with
`TransactionAlreadyExists` and `process` leaves the whole state unchanged
(first record kept, account not adjusted) while still reporting success,
so the run is not aborted.  Stored ids stay unique: every record sits at
the store key equal to its own id, and replay preserves this. -/
theorem duplicate_id_rule :
    (∀ s id c amt u, (s.transactions id).isSome = true → ¬ amt < 0 →
        s.insert_transaction (.deposit id c amt u) =
          (.error (.TransactionAlreadyExists id), s) ∧
        process s (.deposit id c amt u) = (.ok (), s)) ∧
    (∀ s id c amt, (s.transactions id).isSome = true → ¬ amt < 0 →
        s.insert_transaction (.withdrawal id c amt) =
          (.error (.TransactionAlreadyExists id), s) ∧
        process s (.withdrawal id c amt) = (.ok (), s)) ∧
    (∀ s txs, s.wellKeyed → (processAll s txs).wellKeyed) := by
  refine ⟨?_, ?_, ?_⟩
  · intro s id c amt u hdup hamt
    have hins : s.insert_transaction (.deposit id c amt u) =
        (.error (.TransactionAlreadyExists id), s) := by
      simp [State.insert_transaction, StoredTransaction.id, hdup]
    refine ⟨hins, ?_⟩
    have hv : (StoredTransaction.deposit id c amt u).is_not_valid = false := by
      simp [StoredTransaction.is_not_valid, hamt]
    simp [process, hv, processInner, hins]
  · intro s id c amt hdup hamt
    have hins : s.insert_transaction (.withdrawal id c amt) =
        (.error (.TransactionAlreadyExists id), s) := by
      simp [State.insert_transaction, StoredTransaction.id, hdup]
    refine ⟨hins, ?_⟩
    have hv : (StoredTransaction.withdrawal id c amt).is_not_valid = false := by
      simp [StoredTransaction.is_not_valid, hamt]
    simp [process, hv, processInner, hins]
  · intro s txs hw
    exact (processAll_preserves s txs).2 hw

/-- Witness for `duplicate_id_rule`: a second deposit and a withdrawal
under the occupied id 7 are each rejected with the state unchanged. -/
theorem duplicate_id_rule_witness :
    (dupState.insert_transaction (.deposit 7 3 9 false) =
      (.error (.TransactionAlreadyExists 7), dupState) ∧
     process dupState (.deposit 7 3 9 false) = (.ok (), dupState)) ∧
    (dupState.insert_transaction (.withdrawal 7 3 2) =
      (.error (.TransactionAlreadyExists 7), dupState) ∧
     process dupState (.withdrawal 7 3 2) = (.ok (), dupState)) :=
  ⟨duplicate_id_rule.1 dupState 7 3 9 false (by decide) (by norm_num),
   duplicate_id_rule.2.1 dupState 7 3 2 (by decide) (by norm_num)⟩

/-- **C9.** The accounts map is written only when the whole per-record
handling succeeds: any inner failure (insertion, locked check or
adjustment) leaves the accounts map unchanged, so a failing record for a
client with no account leaves the client absent from the output set;
conversely a successful no-op — a Dispute referencing an unknown
transaction id — upserts the lazily created zero-balance account, making
the client appear. -/
theorem upsert_on_success_rule :
    (∀ s tx, (processInner s tx).1.isOk = false →
        ((processInner s tx).2).accounts = s.accounts) ∧
    (∀ s id cid, s.accounts cid = none → s.transactions id = none →
        (processInner s (.dispute id cid)).1 = .ok () ∧
        ((processInner s (.dispute id cid)).2).accounts cid =
          some (Account.new cid)) := by
  constructor
  · intro s tx h
    cases hins : s.insert_transaction tx with
    | mk r1 s1 =>
      cases r1 with
      | error e =>
        obtain ⟨rfl, -⟩ := insert_transaction_err hins
        simp [processInner, hins]
      | ok tx1 =>
        obtain ⟨htx1, hacc, -⟩ := insert_transaction_ok hins
        by_cases hl : (s1.get_account tx1.client_id).locked = true
        · simp only [processInner, hins, hl, if_true]
          exact hacc
        · cases hadj : adjust_account s1 (s1.get_account tx1.client_id) tx1
            with
          | error e2 =>
            simp only [processInner, hins, hl, if_false, hadj]
            exact hacc
          | ok pr =>
            cases pr with
            | mk a1 s2 =>
              simp only [processInner, hins, hl, if_false, hadj] at h
              simp [Except.isOk, Except.toBool] at h
  · intro s id cid ha ht
    constructor <;>
      simp [processInner, State.insert_transaction, State.get_account,
        adjust_account, State.get_transaction, State.upsert_account,
        StoredTransaction.client_id, ha, ht, Account.new]

/-- Witness for `upsert_on_success_rule`: a failing withdrawal for a fresh
client leaves the accounts map unchanged; a dispute of an unknown id
creates the zero-balance account. -/
theorem upsert_on_success_rule_witness :
    ((processInner State.empty (.withdrawal 5 4 1)).2).accounts =
      State.empty.accounts ∧
    ((processInner State.empty (.dispute 9 3)).2).accounts 3 =
      some (Account.new 3) :=
  ⟨upsert_on_success_rule.1 State.empty (.withdrawal 5 4 1) (by decide),
   (upsert_on_success_rule.2 State.empty 9 3 rfl rfl).2⟩

/-- Counterexample to **C3** as stated: client 1's account is locked, yet
processing a fresh deposit for that client does change the transaction
store — the record is inserted before the locked check runs, so "no state
in the store changes (including the transaction store)" is false. -/
theorem locked_account_counterexample :
    (lockedState.accounts 1 = some lockedAccount ∧
      lockedAccount.locked = true) ∧
    lockedState.transactions 5 = none ∧
    ((process lockedState (.deposit 5 1 3 false)).2).transactions 5 =
      some (.deposit 5 1 3 false) := by
  decide

/-- **C3 (amended).** For a client whose stored account is locked, any
valid subsequently processed transaction leaves the accounts map unchanged
and the account unmutated; the transaction store changes only by the
insertion step itself (so Dispute/Resolve/Chargeback change nothing); and
whenever the insertion succeeds the inner handling fails with
`AccountIsLocked`. -/
theorem locked_account_rule (s : State) (a : Account)
    (tx : StoredTransaction) (ha : s.accounts tx.client_id = some a)
    (hl : a.locked = true) (hv : tx.is_not_valid = false) :
    ((process s tx).2).accounts = s.accounts ∧
    ((process s tx).2).transactions =
      ((s.insert_transaction tx).2).transactions ∧
    (∀ tx1 s1, s.insert_transaction tx = (.ok tx1, s1) →
        (processInner s tx).1 = .error (.AccountIsLocked a.client)) := by
  cases hins : s.insert_transaction tx with
  | mk r1 s1 =>
    cases r1 with
    | error e =>
      obtain ⟨rfl, -⟩ := insert_transaction_err hins
      refine ⟨?_, ?_, ?_⟩
      · simp [process, hv, processInner, hins]
      · simp [process, hv, processInner, hins]
      · intro tx2 s2 hins1
        simp at hins1
    | ok tx1 =>
      obtain ⟨htx1, hacc, -⟩ := insert_transaction_ok hins
      have hga : s1.get_account tx1.client_id = a := by
        rw [State.get_account, htx1, hacc, ha]
        rfl
      have hlk : (s1.get_account tx1.client_id).locked = true := by
        rw [hga]
        exact hl
      refine ⟨?_, ?_, ?_⟩
      · simp [process, hv, processInner, hins, hlk]
        exact hacc
      · simp [process, hv, processInner, hins, hlk]
      · intro tx1a s1a hins1
        simp [processInner, hins, hga, hl]

/-- Witness for `locked_account_rule`: a fresh deposit for locked client 1
leaves the accounts map unchanged and fails inside with `AccountIsLocked`. -/
theorem locked_account_rule_witness :
    ((process lockedState (.deposit 5 1 3 false)).2).accounts =
      lockedState.accounts ∧
    (processInner lockedState (.deposit 5 1 3 false)).1 =
      .error (.AccountIsLocked 1) := by
  have h := locked_account_rule lockedState lockedAccount
    (.deposit 5 1 3 false) (by decide) (by decide) (by decide)
  exact ⟨h.1, h.2.2 (.deposit 5 1 3 false)
    ((lockedState.insert_transaction (.deposit 5 1 3 false)).2) rfl⟩

/-- **C10.** Output scaling: an amount whose fractional scale exceeds four
digits is rescaled to exactly four, one already at or below four digits is
left untouched, and `Account::scaled` applies this to each of the three
amounts of the emitted account. -/
theorem scaled_rule (d : Dec) (a : AccountDec) :
    (d.scale ≤ AMOUNT_PRECISION → scale_to_amount_precision d = d) ∧
    (AMOUNT_PRECISION < d.scale →
      (scale_to_amount_precision d).scale = AMOUNT_PRECISION) ∧
    (a.scaled.available = scale_to_amount_precision a.available ∧
     a.scaled.held = scale_to_amount_precision a.held ∧
     a.scaled.total = scale_to_amount_precision a.total) := by
  refine ⟨?_, ?_, rfl, rfl, rfl⟩
  · intro h
    rw [scale_to_amount_precision, if_neg (not_lt.mpr h)]
  · intro h
    rw [scale_to_amount_precision, if_pos h]

/-- Witness for `scaled_rule`: a 3-digit amount is untouched; a 6-digit
amount comes out with scale 4. -/
theorem scaled_rule_witness :
    scale_to_amount_precision { mantissa := 15, scale := 3 } =
      { mantissa := 15, scale := 3 } ∧
    (scale_to_amount_precision { mantissa := 123456, scale := 6 }).scale =
      AMOUNT_PRECISION :=
  ⟨(scaled_rule { mantissa := 15, scale := 3 }
      { client := 0, available := { mantissa := 0, scale := 0 },
        held := { mantissa := 0, scale := 0 },
        total := { mantissa := 0, scale := 0 }, locked := false }).1
      (by decide),
   (scaled_rule { mantissa := 123456, scale := 6 }
      { client := 0, available := { mantissa := 0, scale := 0 },
        held := { mantissa := 0, scale := 0 },
        total := { mantissa := 0, scale := 0 }, locked := false }).2.1
      (by decide)⟩

end Ledger
